import Mathlib

/-!
Verification development for the Car-Ai-Estimator backend
(`backend/main.py`, `backend/gemini_client.py`, `backend/database.py`).

The Python values flowing through the normalization layer are modeled by a
JSON-like value type `JValue` (Python `None`/JSON `null`, booleans, ints,
floats, strings, lists, dicts).  Python floats are modeled by exact
rationals; every claim below only involves values whose float arithmetic is
exact.  Dicts are modeled as association lists in insertion order; a lookup
returns the value of the last binding of the key, matching the overwrite
behaviour of Python dict construction.
-/

namespace CarAI

/-- Model of the Python/JSON values handled by the backend. -/
inductive JValue where
  | null : JValue
  | bool : Bool → JValue
  | int : Int → JValue
  | float : ℚ → JValue
  | str : String → JValue
  | arr : List JValue → JValue
  | obj : List (String × JValue) → JValue

/-- Python truthiness (`bool(x)`) on the modeled values: `None`, `False`,
`0`, `0.0`, `""`, `[]` and `{}` are falsy, everything else truthy. -/
def truthy : JValue → Bool
  | .null => false
  | .bool b => b
  | .int n => if n = 0 then false else true
  | .float q => if q = 0 then false else true
  | .str s => if s = "" then false else true
  | .arr [] => false
  | .arr (_ :: _) => true
  | .obj [] => false
  | .obj (_ :: _) => true

/-- Python `a or b` on modeled values: `a` if truthy, else `b`. -/
def pyOr (a b : JValue) : JValue := if truthy a then a else b

/-- Python `d.get(k)` on a modeled dict: value of the last binding of `k`
(matching dict overwrite semantics), `None` when the key is absent. -/
def jGet (kvs : List (String × JValue)) (k : String) : JValue :=
  match (kvs.filter (fun p => p.1 == k)).getLast? with
  | some p => p.2
  | none => .null

/-- Keys of a modeled dict value (empty for non-dicts). -/
def jKeys : JValue → List String
  | .obj kvs => kvs.map (fun p => p.1)
  | _ => []

/-- The character `{` (kept out of string/char literals). -/
def lbrace : Char := Char.ofNat 123

/-- The character `}`. -/
def rbrace : Char := Char.ofNat 125

/-- The character `"`. -/
def dquote : Char := Char.ofNat 34

/-- The character `\`. -/
def bslash : Char := Char.ofNat 92

/-- The character `'`. -/
def squote : Char := Char.ofNat 39

/-- Model of Python `repr` on a string: quote character selection and the
escaping of backslashes, quotes and common control characters.  (Exotic
control characters are not modeled; no value in this development contains
them.) -/
def pyReprStr (s : String) : String :=
  let hasS := s.toList.contains squote
  let hasD := s.toList.contains dquote
  let q : Char := if hasS && !hasD then dquote else squote
  let esc := s.toList.foldr
    (fun c acc =>
      if c = bslash then bslash :: bslash :: acc
      else if c = q then bslash :: q :: acc
      else if c = Char.ofNat 10 then bslash :: Char.ofNat 110 :: acc
      else if c = Char.ofNat 13 then bslash :: Char.ofNat 114 :: acc
      else if c = Char.ofNat 9 then bslash :: Char.ofNat 116 :: acc
      else c :: acc) []
  String.mk (q :: esc ++ [q])

/-- Fractional digits of a rational in `[0,1)`, most significant first
(fuel-bounded; exact for terminating decimals, which is the only case
arising in this development). -/
def fracDigits : Nat → ℚ → List Char
  | 0, _ => []
  | fuel + 1, q =>
    if q = 0 then []
    else
      let d := (Int.floor (q * 10)).toNat
      Char.ofNat (48 + d) :: fracDigits fuel (q * 10 - Int.floor (q * 10))

/-- Model of Python `str` on a float, e.g. `str(50.0) == "50.0"`.
(Scientific notation for very large/small magnitudes is not modeled.) -/
def pyFloatStr (q : ℚ) : String :=
  let sign := if q < 0 then "-" else ""
  let a := |q|
  let ip := (Int.floor a).toNat
  let frac := fracDigits 32 (a - Int.floor a)
  sign ++ toString ip ++ "." ++ (if frac.isEmpty then "0" else String.mk frac)

mutual

/-- Model of Python `repr` on the modeled values (`repr` is used by `str`
inside containers). -/
def pyRepr : JValue → String
  | .null => "None"
  | .bool b => if b then "True" else "False"
  | .int n => toString n
  | .float q => pyFloatStr q
  | .str s => pyReprStr s
  | .arr xs => "[" ++ String.intercalate (", ") (pyReprList xs) ++ "]"
  | .obj kvs => "\x7b" ++ String.intercalate (", ") (pyReprPairs kvs) ++ "\x7d"

/-- `repr` of each element of a list. -/
def pyReprList : List JValue → List String
  | [] => []
  | x :: xs => pyRepr x :: pyReprList xs

/-- `repr` of each `key: value` pair of a dict. -/
def pyReprPairs : List (String × JValue) → List String
  | [] => []
  | p :: ps => (pyReprStr p.1 ++ ": " ++ pyRepr p.2) :: pyReprPairs ps

end

/-- Model of Python `str(x)`: the string itself for strings, `repr`
otherwise (with `str(None) == "None"`, `str(True) == "True"`, ...). -/
def pyStr (v : JValue) : String :=
  match v with
  | .str s => s
  | v => pyRepr v

/-- One pass of `re.findall` for the pattern `\d+(?:\.\d+)?` used by
`_parse_number_from_string` (main.py line 54): non-overlapping maximal
digit runs, optionally followed by a dot and a further digit run, scanning
left to right.  `\d` is modeled as the ASCII digits.  The fuel argument is
the remaining input length; every step consumes at least one character. -/
def scanNumbers : Nat → List Char → List String
  | 0, _ => []
  | _, [] => []
  | fuel + 1, c :: rest =>
    if c.isDigit then
      let ds := List.takeWhile Char.isDigit (c :: rest)
      let r1 := List.dropWhile Char.isDigit (c :: rest)
      match r1 with
      | '.' :: r2 =>
        if (r2.headD 'x').isDigit then
          let fs := List.takeWhile Char.isDigit r2
          let r3 := List.dropWhile Char.isDigit r2
          String.mk (ds ++ '.' :: fs) :: scanNumbers fuel r3
        else String.mk ds :: scanNumbers fuel r1
      | _ => String.mk ds :: scanNumbers fuel r1
    else scanNumbers fuel rest

/-- All matches of `\d+(?:\.\d+)?` in the given character list. -/
def findNumbers (cs : List Char) : List String := scanNumbers (cs.length + 1) cs

/-- Numeric value of a digit run. -/
def digitsVal (cs : List Char) : Nat := cs.foldl (fun a c => a * 10 + (c.toNat - 48)) 0

/-- Model of Python `float(m)` on a matched string `digits(.digits)?`
(exact rational value; `float` conversion of a match never fails, so the
`except` clause of `_parse_number_from_string` is unreachable). -/
def parseDecimal (s : String) : ℚ :=
  let cs := s.toList
  let ip := cs.takeWhile (fun c => c ≠ '.')
  let rest := cs.dropWhile (fun c => c ≠ '.')
  match rest with
  | _ :: frac => (digitsVal ip : ℚ) + (digitsVal frac : ℚ) / ((10 : ℚ) ^ frac.length)
  | [] => (digitsVal ip : ℚ)

/-- The string branch of `_parse_number_from_string` (main.py lines 52-63):
drop commas, find all numeric matches; none gives `0.0`, one gives its
value, two or more give the mean of the first two. -/
def extractFromText (s : String) : ℚ :=
  let cleaned := s.toList.filter (fun c => c ≠ ',')
  match findNumbers cleaned with
  | [] => 0
  | [a] => parseDecimal a
  | a :: b :: _ => (parseDecimal a + parseDecimal b) / 2

/-- The message of the `OverflowError` raised by Python `float(n)` on an
int beyond double range (modeled message text). -/
def overflowError : String := "OverflowError: int too large to convert to float"

/-- Python `float(n)` on an unbounded int: raises `OverflowError` when the
value rounds beyond the double range (threshold `2^1024 - 2^970`, the
point from which rounding reaches `2^1024`); an in-range value is modeled
by the exact rational (rounding to the nearest double is not modeled —
every value in the claims below is exactly representable). -/
def pyFloatOfInt (n : Int) : Except String ℚ :=
  if 2 ^ 1024 - 2 ^ 970 ≤ |n| then .error overflowError else .ok ((n : ℚ))

/-- `_parse_number_from_string` (main.py lines 46-63).  `None` gives `0.0`;
an `int`/`float` (including Python `bool`, which is an `int` subclass)
gives `abs(float(s))` at line 51 — this call sits *outside* the
`try`/`except` (which only guards lines 57-63), so for an int beyond
double range the `OverflowError` of `float` propagates out of the
function; this is the only failable path and is modeled by
`Except.error`.  (A float input is a parsed double, so `float(s)` is the
identity there; the model's floats are finite rationals — Python's
`NaN`/`Infinity` extension of JSON is not representable in the model, see
`jsonLoads`.)  Anything else is converted with `str` and handled by the
string branch, whose `float` conversions sit inside the `try` and, on a
decimal beyond double range, return `inf` in Python (a non-negative
value; modeled by the exact rational). -/
def parseNumberFromString : JValue → Except String ℚ
  | .null => .ok 0
  | .bool b => .ok (if b then 1 else 0)
  | .int n => (pyFloatOfInt n).map (fun q => |q|)
  | .float q => .ok |q|
  | v => .ok (extractFromText (pyStr v))

/-- The stable dict produced by `_normalize_analysis` (main.py lines 66-156).
`damage_type` and `notes` may be any Python value (the code can put a list
or a raw field value there), so they are kept as `JValue`; `location` is a
`JValue` as well because the top-level fallback at line 127 returns the raw
field value.  Costs are floats. -/
structure NormalizedAnalysis where
  damage_type : JValue
  location : JValue
  cost_inr : ℚ
  cost_usd : ℚ
  cost_yen : ℚ
  notes : JValue

/-- The degenerate record returned for non-dict input (main.py lines 79-87). -/
def degenerateRecord (raw : JValue) : NormalizedAnalysis :=
  ⟨.str ("Unknown"), .str "", 0, 0, 0, .str (pyStr raw)⟩

/-- `damages = raw.get("damages") or raw.get("damage") or []` (line 90). -/
def damagesOf (kvs : List (String × JValue)) : JValue :=
  pyOr (jGet kvs ("damages")) (pyOr (jGet kvs ("damage")) (.arr []))

/-- The loop over the damages list (lines 95-104): collect combined
`"<type> (<part>)"` labels (f-strings apply `str`), bare types, and the raw
part values as location fragments. -/
def collectFromDamages (ds : List JValue) : List JValue × List JValue :=
  ds.foldl
    (fun acc d =>
      let part := match d with | .obj o => jGet o ("part") | _ => .null
      let dtype := match d with | .obj o => jGet o ("damage_type") | _ => .null
      if truthy dtype && truthy part then
        (acc.1 ++ [.str (pyStr dtype ++ " (" ++ pyStr part ++ ")")], acc.2 ++ [part])
      else if truthy dtype then (acc.1 ++ [dtype], acc.2)
      else if truthy part then (acc.1, acc.2 ++ [part])
      else acc)
    ([], [])

/-- Fallback damage types from top-level fields (lines 107-112). -/
def fallbackTypes (kvs : List (String × JValue)) : List JValue :=
  let f := pyOr (jGet kvs ("damage_type")) (jGet kvs ("damage"))
  if truthy f then
    match f with
    | .arr xs => xs
    | _ => [.str (pyStr f)]
  else []

/-- Fallback locations from top-level fields (lines 115-120): a list is
extended element-wise, anything else is appended stringified. -/
def fallbackLocs (kvs : List (String × JValue)) : List JValue :=
  let l := pyOr (jGet kvs ("location")) (jGet kvs ("part"))
  if truthy l then
    match l with
    | .arr xs => xs
    | _ => [.str (pyStr l)]
  else []

/-- Damage types and locations collected by lines 94-120: the damages loop
when the damages value is a non-empty list, the top-level fallback
otherwise. -/
def collected (kvs : List (String × JValue)) : List JValue × List JValue :=
  match damagesOf kvs with
  | .arr [] => (fallbackTypes kvs, fallbackLocs kvs)
  | .arr ds => collectFromDamages ds
  | _ => (fallbackTypes kvs, fallbackLocs kvs)

/-- `damage_types if damage_types else (raw.get("damage_type") or "Unknown")`
(line 123). -/
def damageTypeBase (kvs : List (String × JValue)) (dts : List JValue) : JValue :=
  match dts with
  | [] => pyOr (jGet kvs ("damage_type")) (.str ("Unknown"))
  | _ => .arr dts

/-- Lines 124-125: a one-element list is collapsed to its element. -/
def collapseSingle : JValue → JValue
  | .arr [x] => x
  | v => v

/-- The string values of a list, `none` if some element is not a string
(Python `str.join` raises `TypeError` in that case). -/
def asStrings : List JValue → Option (List String)
  | [] => some []
  | .str s :: rest => (asStrings rest).map (fun ss => s :: ss)
  | _ => none

/-- The `TypeError` message raised by `", ".join` on a non-string item
(modeled message text). -/
def joinTypeError : String := "TypeError: sequence item: expected str instance"

/-- Line 127: `", ".join(locations) if locations else (raw.get("location") or "")`.
The join raises `TypeError` when a collected fragment is not a string. -/
def locationOut (kvs : List (String × JValue)) (locs : List JValue) : Except String JValue :=
  match locs with
  | [] => .ok (pyOr (jGet kvs ("location")) (.str ""))
  | _ =>
    match asStrings locs with
    | some ss => .ok (.str (String.intercalate (", ") ss))
    | none => .error joinTypeError

/-- `est = raw.get("estimated_cost") or raw.get("estimatedCosts") or {}`
(line 130).  Note the `or {}` default: when both keys are absent or falsy
this is the empty dict, which *is* a dict, so the top-level fallback of
lines 138-141 is not taken. -/
def estOf (kvs : List (String × JValue)) : JValue :=
  pyOr (jGet kvs ("estimated_cost")) (pyOr (jGet kvs ("estimatedCosts")) (.obj []))

/-- `usd_raw` (lines 131-141). -/
def usdRawOf (kvs : List (String × JValue)) : JValue :=
  match estOf kvs with
  | .obj e => pyOr (jGet e ("usd")) (pyOr (jGet e ("USD")) (jGet e ("dollars")))
  | _ => pyOr (jGet kvs ("cost_usd")) (pyOr (jGet kvs ("costUSD")) (jGet kvs ("usd")))

/-- `inr_raw` (lines 131-141). -/
def inrRawOf (kvs : List (String × JValue)) : JValue :=
  match estOf kvs with
  | .obj e => pyOr (jGet e ("inr")) (jGet e ("INR"))
  | _ => pyOr (jGet kvs ("cost_inr")) (pyOr (jGet kvs ("costINR")) (jGet kvs ("inr")))

/-- `jpy_raw` (lines 131-141). -/
def jpyRawOf (kvs : List (String × JValue)) : JValue :=
  match estOf kvs with
  | .obj e => pyOr (jGet e ("jpy")) (pyOr (jGet e ("JPY")) (jGet e ("yen")))
  | _ => pyOr (jGet kvs ("cost_yen")) (pyOr (jGet kvs ("costJPY")) (jGet kvs ("jpy")))

/-- `notes = raw.get("notes") or raw.get("note") or raw.get("raw_output") or ""`
(line 147). -/
def notesOf (kvs : List (String × JValue)) : JValue :=
  pyOr (jGet kvs ("notes")) (pyOr (jGet kvs ("note")) (pyOr (jGet kvs ("raw_output")) (.str "")))

/-- `_normalize_analysis` (main.py lines 66-156).  Two statements of the
function can raise, in source order: the `", ".join(locations)` at line
127 (`TypeError` on a non-string location fragment) and the three
`_parse_number_from_string` calls at lines 143-145 (`OverflowError` on an
out-of-range raw int; line 143 converts usd first, then inr, then jpy);
both are modeled by `Except.error` and propagate out of the function as
in Python. -/
def normalizeAnalysis : JValue → Except String NormalizedAnalysis
  | .obj kvs =>
    match locationOut kvs (collected kvs).2 with
    | .error e => .error e
    | .ok loc =>
      match parseNumberFromString (usdRawOf kvs) with
      | .error e => .error e
      | .ok usd =>
        match parseNumberFromString (inrRawOf kvs) with
        | .error e => .error e
        | .ok inr =>
          match parseNumberFromString (jpyRawOf kvs) with
          | .error e => .error e
          | .ok yen =>
            .ok ⟨collapseSingle (damageTypeBase kvs (collected kvs).1), loc,
                 inr, usd, yen, notesOf kvs⟩
  | raw => .ok (degenerateRecord raw)

/-- JSON whitespace. -/
def jWs (c : Char) : Bool := c = ' ' || c = Char.ofNat 9 || c = Char.ofNat 10 || c = Char.ofNat 13

/-- Skip JSON whitespace. -/
def skipWs (cs : List Char) : List Char := cs.dropWhile jWs

/-- Value of a hex digit. -/
def hexVal (c : Char) : Option Nat :=
  if c.isDigit then some (c.toNat - 48)
  else if 97 ≤ c.toNat && c.toNat ≤ 102 then some (c.toNat - 87)
  else if 65 ≤ c.toNat && c.toNat ≤ 70 then some (c.toNat - 55)
  else none

/-- Parse the body of a JSON string literal after the opening quote, in the
strict mode of `json.loads`: unescaped control characters are rejected, the
standard escapes and `\uXXXX` are accepted.  (Surrogate-pair combination is
not modeled; no input in this development uses it.)  Returns the decoded
characters and the rest of the input. -/
def parseJStringBody : Nat → List Char → Option (List Char × List Char)
  | 0, _ => none
  | _, [] => none
  | fuel + 1, c :: rest =>
    if c = dquote then some ([], rest)
    else if c = bslash then
      match rest with
      | [] => none
      | e :: rest1 =>
        let cont := fun (ch : Char) (r : List Char) =>
          (parseJStringBody fuel r).map (fun p => (ch :: p.1, p.2))
        if e = dquote then cont dquote rest1
        else if e = bslash then cont bslash rest1
        else if e = '/' then cont '/' rest1
        else if e = 'b' then cont (Char.ofNat 8) rest1
        else if e = 'f' then cont (Char.ofNat 12) rest1
        else if e = 'n' then cont (Char.ofNat 10) rest1
        else if e = 'r' then cont (Char.ofNat 13) rest1
        else if e = 't' then cont (Char.ofNat 9) rest1
        else if e = 'u' then
          match rest1 with
          | h1 :: h2 :: h3 :: h4 :: rest2 =>
            match hexVal h1, hexVal h2, hexVal h3, hexVal h4 with
            | some a, some b, some c3, some d =>
              cont (Char.ofNat (((a * 16 + b) * 16 + c3) * 16 + d)) rest2
            | _, _, _, _ => none
          | _ => none
        else none
    else if c.toNat < 32 then none
    else (parseJStringBody fuel rest).map (fun p => (c :: p.1, p.2))

/-- Digits of the integer part are non-empty and have no leading zero
unless the part is exactly `0` (JSON number grammar). -/
def jsonIntDigitsOk (ds : List Char) : Bool :=
  match ds with
  | [] => false
  | ['0'] => true
  | '0' :: _ => false
  | _ => true

/-- Parse a JSON number (grammar `-?(0|[1-9][0-9]*)(\.[0-9]+)?([eE][+-]?[0-9]+)?`).
As in Python's `json`, a number without fraction and exponent is an `int`,
otherwise a `float`. -/
def parseJNumber (cs : List Char) : Option (JValue × List Char) :=
  let (neg, cs1) := match cs with
    | '-' :: r => (true, r)
    | _ => (false, cs)
  let intDs := cs1.takeWhile Char.isDigit
  let r1 := cs1.dropWhile Char.isDigit
  if jsonIntDigitsOk intDs then
    let (fracDs, r2) := match r1 with
      | '.' :: rr =>
        let f := rr.takeWhile Char.isDigit
        if f.isEmpty then ([], r1) else (f, rr.dropWhile Char.isDigit)
      | _ => ([], r1)
    let fracFailed := match r1 with
      | '.' :: rr => (rr.takeWhile Char.isDigit).isEmpty
      | _ => false
    if fracFailed then none
    else
      let (expOk, expNeg, expDs, r3) := match r2 with
        | 'e' :: '+' :: rr => (!(rr.takeWhile Char.isDigit).isEmpty, false, rr.takeWhile Char.isDigit, rr.dropWhile Char.isDigit)
        | 'e' :: '-' :: rr => (!(rr.takeWhile Char.isDigit).isEmpty, true, rr.takeWhile Char.isDigit, rr.dropWhile Char.isDigit)
        | 'e' :: rr => (!(rr.takeWhile Char.isDigit).isEmpty, false, rr.takeWhile Char.isDigit, rr.dropWhile Char.isDigit)
        | 'E' :: '+' :: rr => (!(rr.takeWhile Char.isDigit).isEmpty, false, rr.takeWhile Char.isDigit, rr.dropWhile Char.isDigit)
        | 'E' :: '-' :: rr => (!(rr.takeWhile Char.isDigit).isEmpty, true, rr.takeWhile Char.isDigit, rr.dropWhile Char.isDigit)
        | 'E' :: rr => (!(rr.takeWhile Char.isDigit).isEmpty, false, rr.takeWhile Char.isDigit, rr.dropWhile Char.isDigit)
        | _ => (true, false, [], r2)
      let hasExpMark := match r2 with
        | 'e' :: _ => true
        | 'E' :: _ => true
        | _ => false
      if hasExpMark && !expOk then none
      else
        let sgn : ℚ := if neg then -1 else 1
        if fracDs.isEmpty && !hasExpMark then
          some (.int ((if neg then -1 else 1) * (digitsVal intDs : Int)), r2)
        else
          let base : ℚ := (digitsVal intDs : ℚ) + (digitsVal fracDs : ℚ) / ((10 : ℚ) ^ fracDs.length)
          let e : ℤ := (if expNeg then -1 else 1) * (digitsVal expDs : Int)
          some (.float (sgn * base * (10 : ℚ) ^ e), r3)
  else none

mutual

/-- Parse one JSON value (leading whitespace allowed), fuel-bounded.
Models the strict `json.loads` grammar; the `NaN`/`Infinity` extensions of
Python's decoder are not modeled (no input here uses them). -/
def parseJValue : Nat → List Char → Option (JValue × List Char)
  | 0, _ => none
  | fuel + 1, cs =>
    match skipWs cs with
    | [] => none
    | c :: r =>
      if c = dquote then (parseJStringBody fuel r).map (fun p => (.str (String.mk p.1), p.2))
      else if c = lbrace then
        match skipWs r with
        | c2 :: r2 =>
          if c2 = rbrace then some (.obj [], r2)
          else (parseJMembers fuel (skipWs r)).map (fun p => (.obj p.1, p.2))
        | [] => none
      else if c = '[' then
        match skipWs r with
        | ']' :: r2 => some (.arr [], r2)
        | _ => (parseJItems fuel (skipWs r)).map (fun p => (.arr p.1, p.2))
      else if c = 't' then
        match r with
        | 'r' :: 'u' :: 'e' :: r2 => some (.bool true, r2)
        | _ => none
      else if c = 'f' then
        match r with
        | 'a' :: 'l' :: 's' :: 'e' :: r2 => some (.bool false, r2)
        | _ => none
      else if c = 'n' then
        match r with
        | 'u' :: 'l' :: 'l' :: r2 => some (.null, r2)
        | _ => none
      else if c = '-' || c.isDigit then parseJNumber (c :: r)
      else none

/-- Parse the members of a JSON object after `{` (at least one member). -/
def parseJMembers : Nat → List Char → Option (List (String × JValue) × List Char)
  | 0, _ => none
  | fuel + 1, cs =>
    match skipWs cs with
    | c :: r =>
      if c = dquote then
        match parseJStringBody fuel r with
        | none => none
        | some (kcs, r1) =>
          match skipWs r1 with
          | ':' :: r2 =>
            match parseJValue fuel r2 with
            | none => none
            | some (v, r3) =>
              match skipWs r3 with
              | ',' :: r4 => (parseJMembers fuel r4).map (fun p => ((String.mk kcs, v) :: p.1, p.2))
              | c2 :: r4 => if c2 = rbrace then some ([(String.mk kcs, v)], r4) else none
              | [] => none
          | _ => none
      else none
    | [] => none

/-- Parse the items of a JSON array after `[` (at least one item). -/
def parseJItems : Nat → List Char → Option (List JValue × List Char)
  | 0, _ => none
  | fuel + 1, cs =>
    match parseJValue fuel cs with
    | none => none
    | some (v, r) =>
      match skipWs r with
      | ',' :: r2 => (parseJItems fuel r2).map (fun p => (v :: p.1, p.2))
      | ']' :: r2 => some ([v], r2)
      | _ => none

end

/-- Model of `json.loads` on the modeled value type: parse one value,
allow surrounding whitespace, require the whole input to be consumed;
`none` models a raised `JSONDecodeError`. -/
def jsonLoads (s : String) : Option JValue :=
  match parseJValue (s.length + 2) s.toList with
  | some (v, rest) => if skipWs rest = [] then some v else none
  | none => none

/-- `re.search(r"\{[\s\S]*\}", text)` (gemini_client.py line 49): the
leftmost-then-greedy match runs from the first `{` that has a `}` after it
(equivalently, the first `{` overall, when one exists with any later `}`)
to the last `}` of the whole text. -/
def braceSpan (s : String) : Option String :=
  let cs := s.toList
  match cs.findIdx? (fun c => c = lbrace), cs.reverse.findIdx? (fun c => c = rbrace) with
  | some i, some jr =>
    let j := cs.length - 1 - jr
    if i < j then some (String.mk ((cs.drop i).take (j - i + 1))) else none
  | _, _ => none

/-- The decode-with-repair step of `analyze_damage_bytes`
(gemini_client.py lines 44-56): strict parse of the whole text, else
strict parse of the brace-delimited span, else `{"raw_output": text}`. -/
def decodeModelText (text : String) : JValue :=
  match jsonLoads text with
  | some v => v
  | none =>
    match braceSpan text with
    | some sub =>
      match jsonLoads sub with
      | some v => v
      | none => .obj [("raw_output", .str text)]
    | none => .obj [("raw_output", .str text)]

/-- A persisted row of the `analysis` table (database.py lines 17-27):
`id` (integer primary key, assigned monotonically by the append-only
store), `image_path`, `damage_type`, `location`, the three costs and
`created_at` (set at persistence time from the clock).  The table has no
`notes` column.  `location` is kept as a `JValue` because main.py line 183
passes the raw fallback value through without stringifying it. -/
structure Analysis where
  id : Nat
  image_path : String
  damage_type : String
  location : JValue
  cost_inr : ℚ
  cost_usd : ℚ
  cost_yen : ℚ
  created_at : Nat

/-- The extension part of `os.path.splitext`: from the last dot of the
name, unless every character before that dot is itself a dot. -/
def splitextExt (name : String) : String :=
  let cs := name.toList
  match ((List.range cs.length).filter (fun i => cs.getD i ' ' = '.')).getLast? with
  | none => ""
  | some i => if (cs.take i).all (fun c => c = '.') then "" else String.mk (cs.drop i)

/-- Outcomes of the collaborator calls made by one `analyze` request
(main.py lines 159-204), in the order the code performs them:
`await file.read()`, the file write, the Gemini call inside
`gemini_client.analyze_damage_bytes` (returning the response text on
success), `db.add`+`db.commit` (a failed commit rolls back, so nothing is
persisted), and `db.refresh` (which runs after the commit).  `uniqueHex`
models `uuid.uuid4().hex` and `now` the persistence-time clock value used
for `created_at`. -/
structure AnalyzeEnv where
  readResult : Except String Unit
  filename : String
  uniqueHex : String
  saveResult : Except String Unit
  modelResult : Except String String
  dbAddCommit : Except String Unit
  refreshResult : Except String Unit
  now : Nat

/-- The error payload built by the `except` handler (main.py line 204):
`{"analysis": {"error": str(e)}}`. -/
def errResp (e : String) : JValue := .obj [("analysis", .obj [("error", .str e)])]

/-- `damage_str` (main.py line 182): the string itself, a comma join of a
list (raising `TypeError` on non-string items), else `"Unknown"`. -/
def damageStrOf (v : JValue) : Except String String :=
  match v with
  | .str s => .ok s
  | .arr xs =>
    match asStrings xs with
    | some ss => .ok (String.intercalate (", ") ss)
    | none => .error joinTypeError
  | _ => .ok ("Unknown")

/-- `location_str = normalized.get("location", "") or ""` (main.py line 183). -/
def locationStrOf (v : JValue) : JValue := pyOr v (.str "")

/-- The response payload of a successful request (main.py lines 176-201):
the normalized dict in insertion order with `uploadedImage` appended at
line 179.  (Lines 184-186 re-read the costs through `float(x or 0.0)`,
which is the identity on the float values produced by the normalizer.) -/
def respOf (n : NormalizedAnalysis) (img : String) : JValue :=
  .obj [("damage_type", n.damage_type), ("location", n.location),
        ("cost_inr", .float n.cost_inr), ("cost_usd", .float n.cost_usd),
        ("cost_yen", .float n.cost_yen), ("notes", n.notes),
        ("uploadedImage", .str img)]

/-- The `analyze` endpoint (main.py lines 159-204) over the modeled
collaborator outcomes and the modeled database (a list of rows in
insertion order).  Every exception is caught by the outermost handler and
becomes `errResp`; the row is appended exactly when `db.add`+`db.commit`
succeed, and stays appended even if the later `db.refresh` raises. -/
def analyze (env : AnalyzeEnv) (db : List Analysis) : JValue × List Analysis :=
  match env.readResult with
  | .error e => (errResp e, db)
  | .ok _ =>
    match env.saveResult with
    | .error e => (errResp e, db)
    | .ok _ =>
      match env.modelResult with
      | .error e => (errResp e, db)
      | .ok text =>
        match normalizeAnalysis (decodeModelText text) with
        | .error e => (errResp e, db)
        | .ok norm =>
          let ext0 := splitextExt env.filename
          let ext := if ext0 = "" then ".png" else ext0
          let img := "/uploads/" ++ env.uniqueHex ++ ext
          match damageStrOf norm.damage_type with
          | .error e => (errResp e, db)
          | .ok dstr =>
            let entry : Analysis :=
              ⟨db.length + 1, img, dstr, locationStrOf norm.location,
               norm.cost_inr, norm.cost_usd, norm.cost_yen, env.now⟩
            match env.dbAddCommit with
            | .error e => (errResp e, db)
            | .ok _ =>
              match env.refreshResult with
              | .error e => (errResp e, db ++ [entry])
              | .ok _ => (.obj [("analysis", respOf norm img)], db ++ [entry])

/-- Stable descending insertion by `created_at`, modeling
`order_by(Analysis.created_at.desc())`. -/
def insertDesc (r : Analysis) : List Analysis → List Analysis
  | [] => [r]
  | x :: xs => if r.created_at ≤ x.created_at then x :: insertDesc r xs else r :: x :: xs

/-- The rows of the table sorted most recently created first. -/
def sortByCreatedDesc (db : List Analysis) : List Analysis := db.foldr insertDesc []

/-- Model of `created_at.isoformat()`: an injective rendering of the model
timestamp. -/
def isoFormat (t : Nat) : String := toString t

/-- One serialized history entry (main.py lines 213-222). -/
def historyRow (r : Analysis) : JValue :=
  .obj [("id", .int (r.id)), ("image_path", .str (r.image_path)),
        ("damage_type", .str (r.damage_type)), ("location", r.location),
        ("cost_inr", .float (r.cost_inr)), ("cost_usd", .float (r.cost_usd)),
        ("cost_yen", .float (r.cost_yen)), ("created_at", .str (isoFormat r.created_at))]

/-- The `/history` endpoint (main.py lines 208-223): all rows ordered by
`created_at` descending, serialized; no pagination, no filtering. -/
def get_history (db : List Analysis) : List JValue := (sortByCreatedDesc db).map historyRow

/-- Pre-persistence failure: some step strictly before the database append
(file read, file save, model call, normalization, or the add+commit itself)
raises. -/
def prePersistFails (env : AnalyzeEnv) : Prop :=
  (∃ e, env.readResult = .error e) ∨
  (∃ e, env.saveResult = .error e) ∨
  (∃ e, env.modelResult = .error e) ∨
  (∃ t e, env.modelResult = .ok t ∧ normalizeAnalysis (decodeModelText t) = .error e) ∨
  (∃ t n e, env.modelResult = .ok t ∧ normalizeAnalysis (decodeModelText t) = .ok n ∧
    damageStrOf n.damage_type = .error e) ∨
  (∃ e, env.dbAddCommit = .error e)

/-- Collaborator outcomes for the C1 witness: the external model client
raises, everything before it succeeds. -/
def envModelDown : AnalyzeEnv :=
  ⟨.ok (), "car.png", "aabb", .ok (), .error ("network down"), .ok (), .ok (), 7⟩

/-- Collaborator outcomes for the C1 counterexample: every step succeeds
except the post-commit `db.refresh`, which raises. -/
def envRefreshFails : AnalyzeEnv :=
  ⟨.ok (), "car.png", "aabb", .ok (), .ok ("no json here"), .ok (), .error ("refresh failed"), 7⟩

/-- Collaborator outcomes for the C9 counterexample: a fully successful
request whose model response carries a non-empty `notes` field. -/
def envNotes : AnalyzeEnv :=
  ⟨.ok (), "a.png", "himg", .ok (), .ok ("\x7b\"notes\": \"check frame\"\x7d"), .ok (), .ok (), 5⟩

/-- A keyed input whose nested cost value is a truthy non-dict, so the
top-level flattened cost keys are read. -/
def kvsCostW : List (String × JValue) :=
  [("estimated_cost", .str ("N/A")), ("cost_usd", .str ("50"))]

/-- A first persisted row for the C8 witness. -/
def rowA : Analysis := ⟨1, "/uploads/a.png", "Unknown", .str "", 0, 0, 0, 3⟩

/-- A second, later persisted row for the C8 witness. -/
def rowB : Analysis := ⟨2, "/uploads/b.png", "Unknown", .str "", 0, 0, 0, 4⟩

/-- C2: the Numeric Extractor value equations: `extract(None) = 0.0`,
`extract("50-100") = 75.0`, `extract("1,234") = 1234.0`,
`extract("abc") = 0.0`, `extract(-5) = 5.0` (absolute value discards the
sign of a raw numeric input), and `extract("10-20-30") = 15.0` (only the
first two of three matches are averaged). -/
theorem numeric_extractor_values :
    parseNumberFromString .null = .ok 0 ∧
    parseNumberFromString (.str ("50-100")) = .ok 75 ∧
    parseNumberFromString (.str ("1,234")) = .ok 1234 ∧
    parseNumberFromString (.str ("abc")) = .ok 0 ∧
    parseNumberFromString (.int (-5)) = .ok 5 ∧
    parseNumberFromString (.str ("10-20-30")) = .ok 15 := by
  refine ⟨rfl, ?_, ?_, rfl, ?_, ?_⟩
  · have h : findNumbers ['5', '0', '-', '1', '0', '0'] = ["50", "100"] := by decide
    simp [parseNumberFromString, extractFromText, pyStr, h]
    simp +decide [parseDecimal, digitsVal, List.dropWhile, List.takeWhile]
    norm_num
  · have h : findNumbers ['1', '2', '3', '4'] = ["1234"] := by decide
    simp [parseNumberFromString, extractFromText, pyStr, h]
    simp +decide [parseDecimal, digitsVal, List.dropWhile, List.takeWhile]
  · show (pyFloatOfInt (-5)).map (fun q => |q|) = .ok 5
    rw [pyFloatOfInt, if_neg (by norm_num)]
    show Except.ok |((-5 : Int) : ℚ)| = .ok 5
    norm_num
  · have h : findNumbers ['1', '0', '-', '2', '0', '-', '3', '0'] = ["10", "20", "30"] := by decide
    simp [parseNumberFromString, extractFromText, pyStr, h]
    simp +decide [parseDecimal, digitsVal, List.dropWhile, List.takeWhile]
    norm_num

theorem pyOr_ne_null (a b : JValue) (hb : b ≠ .null) : pyOr a b ≠ .null := by
  unfold pyOr
  split
  · next h => intro ha; subst ha; simp [truthy] at h
  · exact hb

theorem notesOf_ne_null (kvs : List (String × JValue)) : notesOf kvs ≠ .null := by
  unfold notesOf
  apply pyOr_ne_null
  apply pyOr_ne_null
  apply pyOr_ne_null
  simp

theorem locationOut_ne_null (kvs : List (String × JValue)) (locs : List JValue) (v : JValue)
    (h : locationOut kvs locs = .ok v) : v ≠ .null := by
  unfold locationOut at h
  split at h
  · cases h
    exact pyOr_ne_null _ _ (by simp)
  · split at h
    · cases h; simp
    · cases h

/-- C5 counterexample: a keyed input whose damages entry carries a numeric
`part` makes `_normalize_analysis` raise `TypeError` in the
`", ".join(locations)` at line 127, so the Shape Normalizer is not total
on keyed objects. -/
theorem normalizer_totality_counterexample :
    normalizeAnalysis (.obj [("damages", .arr [.obj [("part", .int 1), ("damage_type", .str ("x"))]])]) =
      .error joinTypeError := by rfl

/-- C5 (amended): the Shape Normalizer returns exactly the degenerate
record for every input that is not a keyed object, and whenever it returns
a record at all, the `location` and `notes` fields are non-null; it is not
total on keyed objects (see the counterexample). -/
theorem normalizer_totality_amended :
    (∀ raw : JValue, (∀ kvs, raw ≠ .obj kvs) → normalizeAnalysis raw = .ok (degenerateRecord raw)) ∧
    (∀ raw n, normalizeAnalysis raw = .ok n → n.location ≠ .null ∧ n.notes ≠ .null) := by
  constructor
  · intro raw h
    cases raw with
    | obj kvs => exact absurd rfl (h kvs)
    | null => rfl
    | bool b => rfl
    | int n => rfl
    | float q => rfl
    | str s => rfl
    | arr xs => rfl
  · intro raw n h
    cases raw with
    | obj kvs =>
      rw [normalizeAnalysis] at h
      split at h
      · cases h
      · next loc hloc =>
        split at h
        · cases h
        · split at h
          · cases h
          · split at h
            · cases h
            · cases h
              exact ⟨locationOut_ne_null _ _ _ hloc, notesOf_ne_null _⟩
    | null => cases h; constructor <;> simp [degenerateRecord]
    | bool b => cases h; constructor <;> simp [degenerateRecord]
    | int m => cases h; constructor <;> simp [degenerateRecord]
    | float q => cases h; constructor <;> simp [degenerateRecord]
    | str s => cases h; constructor <;> simp [degenerateRecord]
    | arr xs => cases h; constructor <;> simp [degenerateRecord]

/-- Witness for the amended C5 at the non-object input `"hi"`. -/
theorem normalizer_totality_witness :
    normalizeAnalysis (.str ("hi")) = .ok (degenerateRecord (.str ("hi"))) ∧
    (degenerateRecord (.str ("hi"))).location ≠ .null ∧
    (degenerateRecord (.str ("hi"))).notes ≠ .null := by
  have h1 := normalizer_totality_amended.1 (.str ("hi")) (fun kvs h => JValue.noConfusion h)
  exact ⟨h1, normalizer_totality_amended.2 _ _ h1⟩

/-- C6: one damages entry carrying both part and damage_type yields the
bare combined string `"dent (bumper)"` (not a one-element list); two such
entries yield a list of the two combined labels (not collapsed). -/
theorem damage_collapse :
    normalizeAnalysis (.obj [("damages", .arr
        [.obj [("part", .str ("bumper")), ("damage_type", .str ("dent"))]])]) =
      .ok ⟨.str ("dent (bumper)"), .str ("bumper"), 0, 0, 0, .str ""⟩ ∧
    normalizeAnalysis (.obj [("damages", .arr
        [.obj [("part", .str ("bumper")), ("damage_type", .str ("dent"))],
         .obj [("part", .str ("door")), ("damage_type", .str ("scratch"))]])]) =
      .ok ⟨.arr [.str ("dent (bumper)"), .str ("scratch (door)")],
           .str ("bumper, door"), 0, 0, 0, .str ""⟩ :=
  ⟨rfl, rfl⟩

/-- C10: a present-but-falsy value loses to a later fallback in every `or`
lookup chain: `{"estimated_cost": {"usd": 0, "dollars": "50"}}` yields
`cost_usd = 50.0` and `{"notes": "", "note": "x"}` yields notes `"x"`. -/
theorem falsy_lookup_fallback :
    (∀ a b : JValue, truthy a = false → pyOr a b = b) ∧
    normalizeAnalysis (.obj [("estimated_cost", .obj [("usd", .int 0), ("dollars", .str ("50"))])]) =
      .ok ⟨.str ("Unknown"), .str "", 0, 50, 0, .str ""⟩ ∧
    normalizeAnalysis (.obj [("notes", .str ""), ("note", .str ("x"))]) =
      .ok ⟨.str ("Unknown"), .str "", 0, 0, 0, .str ("x")⟩ := by
  refine ⟨?_, ?_, rfl⟩
  · intro a b h
    simp [pyOr, h]
  · simp +decide [normalizeAnalysis, locationOut, collected, damagesOf, fallbackTypes,
      fallbackLocs, damageTypeBase, collapseSingle, estOf, usdRawOf, inrRawOf, jpyRawOf,
      notesOf, jGet, pyOr, truthy, parseNumberFromString, extractFromText, pyStr,
      findNumbers, scanNumbers, NormalizedAnalysis.mk.injEq]

/-- Witness for C10: the falsy value `0` loses to the later chain element. -/
theorem falsy_lookup_fallback_witness : pyOr (.int 0) (.str ("x")) = .str ("x") :=
  falsy_lookup_fallback.1 (.int 0) (.str ("x")) rfl

/-- C3 counterexample: with no nested cost structure at all, `est` defaults
to the empty dict (`or {}` at line 130), which *is* a dict, so the
top-level `cost_usd` key is never read and the cost is `0.0`, not `50.0`. -/
theorem cost_fallback_counterexample :
    normalizeAnalysis (.obj [("cost_usd", .str ("50"))]) =
      .ok ⟨.str ("Unknown"), .str "", 0, 0, 0, .str ""⟩ ∧ (0 : ℚ) ≠ 50 :=
  ⟨rfl, by norm_num⟩

/-- C3 (amended): the top-level flattened per-currency keys are read only
when the nested cost value is present, truthy and not itself a keyed
object; when both nested keys are absent the empty-dict default wins, so
`{"cost_usd": "50"}` alone yields `cost_usd = 0.0` while
`{"estimated_cost": "N/A", "cost_usd": "50"}` yields `50.0`. -/
theorem cost_fallback_amended :
    (∀ kvs, (∀ e, estOf kvs ≠ .obj e) →
      usdRawOf kvs = pyOr (jGet kvs ("cost_usd")) (pyOr (jGet kvs ("costUSD")) (jGet kvs ("usd"))) ∧
      inrRawOf kvs = pyOr (jGet kvs ("cost_inr")) (pyOr (jGet kvs ("costINR")) (jGet kvs ("inr"))) ∧
      jpyRawOf kvs = pyOr (jGet kvs ("cost_yen")) (pyOr (jGet kvs ("costJPY")) (jGet kvs ("jpy")))) ∧
    normalizeAnalysis (.obj kvsCostW) =
      .ok ⟨.str ("Unknown"), .str "", 0, 50, 0, .str ""⟩ ∧
    normalizeAnalysis (.obj [("cost_usd", .str ("50"))]) =
      .ok ⟨.str ("Unknown"), .str "", 0, 0, 0, .str ""⟩ := by
  refine ⟨?_, ?_, rfl⟩
  · intro kvs h
    refine ⟨?_, ?_, ?_⟩
    · unfold usdRawOf
      split
      · next e hE => exact absurd hE (h e)
      · rfl
    · unfold inrRawOf
      split
      · next e hE => exact absurd hE (h e)
      · rfl
    · unfold jpyRawOf
      split
      · next e hE => exact absurd hE (h e)
      · rfl
  · simp +decide [normalizeAnalysis, locationOut, collected, damagesOf, fallbackTypes,
      fallbackLocs, damageTypeBase, collapseSingle, estOf, usdRawOf, inrRawOf, jpyRawOf,
      notesOf, jGet, pyOr, truthy, parseNumberFromString, extractFromText, pyStr,
      findNumbers, scanNumbers, kvsCostW, NormalizedAnalysis.mk.injEq]

/-- Witness for the amended C3: on `kvsCostW` the nested value is a truthy
non-dict, so `usd_raw` comes from the top-level chain. -/
theorem cost_fallback_witness :
    usdRawOf kvsCostW =
      pyOr (jGet kvsCostW ("cost_usd")) (pyOr (jGet kvsCostW ("costUSD")) (jGet kvsCostW ("usd"))) :=
  ((cost_fallback_amended.1 kvsCostW (fun _ h => JValue.noConfusion h)).1)

theorem normalize_rawOutput (t : String) :
    normalizeAnalysis (.obj [("raw_output", .str t)]) =
      .ok ⟨.str ("Unknown"), .str "", 0, 0, 0, .str t⟩ := by
  have hnotes : notesOf [("raw_output", .str t)] = .str t := by
    by_cases h : t = ""
    · subst h; rfl
    · simp [notesOf, pyOr, jGet, truthy, h]
  calc normalizeAnalysis (.obj [("raw_output", .str t)])
      = .ok ⟨.str ("Unknown"), .str "", 0, 0, 0, notesOf [("raw_output", .str t)]⟩ := rfl
    _ = .ok ⟨.str ("Unknown"), .str "", 0, 0, 0, .str t⟩ := by rw [hnotes]

/-- C4: the decode step is total and three-staged: whole-text strict JSON
wins, else a strict parse of the brace-delimited span (first `{` to last
`}`, greedy), else the `{"raw_output": text}` fallback, which the Shape
Normalizer reduces to damage_type `"Unknown"`, notes = original text. -/
theorem decode_three_stage (t : String) :
    (∀ v, jsonLoads t = some v → decodeModelText t = v) ∧
    (jsonLoads t = none → ∀ s v, braceSpan t = some s → jsonLoads s = some v → decodeModelText t = v) ∧
    ((jsonLoads t = none ∧ ∀ s, braceSpan t = some s → jsonLoads s = none) →
      decodeModelText t = .obj [("raw_output", .str t)] ∧
      normalizeAnalysis (.obj [("raw_output", .str t)]) =
        .ok ⟨.str ("Unknown"), .str "", 0, 0, 0, .str t⟩) := by
  refine ⟨?_, ?_, ?_⟩
  · intro v h
    simp [decodeModelText, h]
  · intro h s v hs hv
    simp [decodeModelText, h, hs, hv]
  · rintro ⟨h, hall⟩
    refine ⟨?_, normalize_rawOutput t⟩
    cases hb : braceSpan t with
    | none => simp [decodeModelText, h, hb]
    | some s => simp [decodeModelText, h, hb, hall s hb]

/-- Witness for C4 at the text `"no json here"`: no stage finds JSON, the
fallback object is produced and normalizes to the Unknown/notes record. -/
theorem decode_three_stage_witness :
    decodeModelText ("no json here") = .obj [("raw_output", .str ("no json here"))] ∧
    normalizeAnalysis (.obj [("raw_output", .str ("no json here"))]) =
      .ok ⟨.str ("Unknown"), .str "", 0, 0, 0, .str ("no json here")⟩ :=
  (decode_three_stage ("no json here")).2.2 ⟨rfl, fun _ h => Option.noConfusion h⟩

theorem prePersist_contra (fn uh text : String) (norm : NormalizedAnalysis) (dstr : String)
    (rf : Except String Unit) (now : Nat)
    (hN : normalizeAnalysis (decodeModelText text) = .ok norm)
    (hD : damageStrOf norm.damage_type = .ok dstr)
    (h : prePersistFails ⟨.ok (), fn, uh, .ok (), .ok text, .ok (), rf, now⟩) : False := by
  rcases h with ⟨e, he⟩ | ⟨e, he⟩ | ⟨e, he⟩ | ⟨t, e, ht, he⟩ | ⟨t, n, e, ht, hn, he⟩ | ⟨e, he⟩
  · exact Except.noConfusion he
  · exact Except.noConfusion he
  · exact Except.noConfusion he
  · injection ht with ht2
    subst ht2
    rw [hN] at he
    exact Except.noConfusion he
  · injection ht with ht2
    subst ht2
    rw [hN] at hn
    injection hn with hn2
    subst hn2
    rw [hD] at he
    exact Except.noConfusion he
  · exact Except.noConfusion he

/-- C1 (amended): every exception raised during `analyze` is caught and the
response always keeps the `{"analysis": ...}` top-level shape; on any
failure of a step before or at the database commit the payload is an error
object and no record is written (the append happens only after every prior
step succeeds).  An exception raised after the commit — in `db.refresh` —
still yields the error payload but the record remains persisted (see the
counterexample). -/
theorem analyze_containment_amended (env : AnalyzeEnv) (db : List Analysis) :
    (∃ inner, (analyze env db).1 = .obj [("analysis", inner)]) ∧
    (prePersistFails env → (∃ e, (analyze env db).1 = errResp e) ∧ (analyze env db).2 = db) := by
  obtain ⟨rr, fn, uh, sr, mr, dc, rf, now⟩ := env
  cases rr with
  | error e => exact ⟨⟨_, rfl⟩, fun _ => ⟨⟨e, rfl⟩, rfl⟩⟩
  | ok u =>
    cases u
    cases sr with
    | error e => exact ⟨⟨_, rfl⟩, fun _ => ⟨⟨e, rfl⟩, rfl⟩⟩
    | ok u2 =>
      cases u2
      cases mr with
      | error e => exact ⟨⟨_, rfl⟩, fun _ => ⟨⟨e, rfl⟩, rfl⟩⟩
      | ok text =>
        cases hN : normalizeAnalysis (decodeModelText text) with
        | error e =>
          refine ⟨⟨.obj [("error", .str e)], ?_⟩, fun _ => ⟨⟨e, ?_⟩, ?_⟩⟩ <;>
            simp only [analyze, hN, errResp]
        | ok norm =>
          cases hD : damageStrOf norm.damage_type with
          | error e =>
            refine ⟨⟨.obj [("error", .str e)], ?_⟩, fun _ => ⟨⟨e, ?_⟩, ?_⟩⟩ <;>
              simp only [analyze, hN, hD, errResp]
          | ok dstr =>
            cases dc with
            | error e =>
              refine ⟨⟨.obj [("error", .str e)], ?_⟩, fun _ => ⟨⟨e, ?_⟩, ?_⟩⟩ <;>
                simp only [analyze, hN, hD, errResp]
            | ok u3 =>
              cases u3
              cases rf with
              | error e =>
                refine ⟨⟨.obj [("error", .str e)], ?_⟩, fun h => absurd h ?_⟩
                · simp only [analyze, hN, hD, errResp]
                · intro h
                  exact prePersist_contra fn uh text norm dstr _ now hN hD h
              | ok u4 =>
                cases u4
                refine ⟨⟨respOf norm ("/uploads/" ++ uh ++
                    (if splitextExt fn = "" then ".png" else splitextExt fn)), ?_⟩,
                  fun h => absurd h ?_⟩
                · simp only [analyze, hN, hD]
                · intro h
                  exact prePersist_contra fn uh text norm dstr _ now hN hD h

/-- Witness for the amended C1: the external model client raises, the
caller receives the error payload and no record is written. -/
theorem analyze_containment_witness :
    (∃ e, (analyze envModelDown []).1 = errResp e) ∧ (analyze envModelDown []).2 = [] :=
  (analyze_containment_amended envModelDown []).2
    (Or.inr (Or.inr (Or.inl ⟨"network down", rfl⟩)))

/-- C1 counterexample: with every step succeeding except the post-commit
`db.refresh`, the caller receives the error payload and yet a
PersistedRecord has been written, refuting "no PersistedRecord is written
for every exception raised during `analyze`". -/
theorem analyze_containment_counterexample :
    (analyze envRefreshFails []).1 = errResp ("refresh failed") ∧
    ((analyze envRefreshFails []).2).length = 1 :=
  ⟨rfl, rfl⟩

theorem insertDesc_of_lt (r : Analysis) (m : List Analysis)
    (h : ∀ x ∈ m, r.created_at < x.created_at) : insertDesc r m = m ++ [r] := by
  induction m with
  | nil => rfl
  | cons x xs ih =>
    have hx : r.created_at ≤ x.created_at := le_of_lt (h x (by simp))
    simp only [insertDesc, if_pos hx, List.cons_append, List.cons.injEq, true_and]
    exact ih (fun y hy => h y (by simp [hy]))

theorem sortDesc_strict (db : List Analysis)
    (h : db.Pairwise (fun a b => a.created_at < b.created_at)) :
    sortByCreatedDesc db = db.reverse := by
  induction db with
  | nil => rfl
  | cons a l ih =>
    rw [List.pairwise_cons] at h
    have hstep : sortByCreatedDesc (a :: l) = insertDesc a (sortByCreatedDesc l) := rfl
    rw [hstep, ih h.2, insertDesc_of_lt]
    · simp
    · intro x hx
      exact h.1 x (List.mem_reverse.mp hx)

/-- C8: when records are persisted at strictly increasing creation times,
the history listing returns all of them, newest first (exactly the
reversed insertion order — no pagination, no filtering): a record
persisted later appears before every record persisted earlier. -/
theorem history_ordering (db : List Analysis)
    (h : db.Pairwise (fun a b => a.created_at < b.created_at)) :
    get_history db = (db.reverse).map historyRow := by
  unfold get_history
  rw [sortDesc_strict db h]

/-- Witness for C8: two concrete rows persisted at times 3 then 4 come
back in the order second-then-first. -/
theorem history_ordering_witness :
    get_history [rowA, rowB] = [historyRow rowB, historyRow rowA] := by
  have h : ([rowA, rowB] : List Analysis).Pairwise (fun a b => a.created_at < b.created_at) := by
    simp [List.pairwise_cons, rowA, rowB]
  simpa using history_ordering [rowA, rowB] h

theorem analyze_append (env : AnalyzeEnv) (db : List Analysis) :
    (analyze env db).2 = db ∨
    ∃ a, (analyze env db).2 = db ++ [a] ∧ a.id = db.length + 1 ∧ a.created_at = env.now := by
  obtain ⟨rr, fn, uh, sr, mr, dc, rf, now⟩ := env
  cases rr with
  | error e => exact Or.inl rfl
  | ok u =>
    cases u
    cases sr with
    | error e => exact Or.inl rfl
    | ok u2 =>
      cases u2
      cases mr with
      | error e => exact Or.inl rfl
      | ok text =>
        cases hN : normalizeAnalysis (decodeModelText text) with
        | error e => exact Or.inl (by simp only [analyze, hN])
        | ok norm =>
          cases hD : damageStrOf norm.damage_type with
          | error e => exact Or.inl (by simp only [analyze, hN, hD])
          | ok dstr =>
            cases dc with
            | error e => exact Or.inl (by simp only [analyze, hN, hD])
            | ok u3 =>
              cases u3
              cases rf with
              | error e =>
                refine Or.inr ⟨⟨db.length + 1, "/uploads/" ++ uh ++
                    (if splitextExt fn = "" then ".png" else splitextExt fn), dstr,
                    locationStrOf norm.location, norm.cost_inr, norm.cost_usd,
                    norm.cost_yen, now⟩, ?_, rfl, rfl⟩
                simp only [analyze, hN, hD]
              | ok u4 =>
                cases u4
                refine Or.inr ⟨⟨db.length + 1, "/uploads/" ++ uh ++
                    (if splitextExt fn = "" then ".png" else splitextExt fn), dstr,
                    locationStrOf norm.location, norm.cost_inr, norm.cost_usd,
                    norm.cost_yen, now⟩, ?_, rfl, rfl⟩
                simp only [analyze, hN, hD]

/-- C9 (amended): a PersistedRecord carries the CanonicalAnalysis fields
except `notes` — image reference, damage_type, location and the three
costs — plus a monotonically assigned identifier (list length + 1) and a
creation timestamp taken at persistence time; the `notes` field is not
persisted and the history endpoint surfaces no `notes` key. -/
theorem persisted_record_fields :
    (∀ r : Analysis, jKeys (historyRow r) =
        ["id", "image_path", "damage_type", "location", "cost_inr", "cost_usd", "cost_yen", "created_at"] ∧
      ("notes") ∉ jKeys (historyRow r)) ∧
    (∀ env db, (analyze env db).2 = db ∨
      ∃ a, (analyze env db).2 = db ++ [a] ∧ a.id = db.length + 1 ∧ a.created_at = env.now) := by
  constructor
  · intro r
    refine ⟨rfl, ?_⟩
    simp [jKeys, historyRow]
  · exact analyze_append

/-- C9 counterexample: a fully successful request whose normalized
analysis carries non-empty notes `"check frame"`: the response surfaces
the notes, but the history entry for the persisted record has exactly the
eight persisted keys and no `notes` key — notes is not carried into the
PersistedRecord. -/
theorem persisted_record_counterexample :
    (analyze envNotes []).1 =
      .obj [("analysis", .obj [("damage_type", .str ("Unknown")), ("location", .str ""),
        ("cost_inr", .float 0), ("cost_usd", .float 0), ("cost_yen", .float 0),
        ("notes", .str ("check frame")), ("uploadedImage", .str ("/uploads/himg.png"))])] ∧
    (get_history (analyze envNotes []).2).map jKeys =
      [["id", "image_path", "damage_type", "location", "cost_inr", "cost_usd", "cost_yen", "created_at"]] ∧
    ("notes") ∉ (["id", "image_path", "damage_type", "location", "cost_inr", "cost_usd",
      "cost_yen", "created_at"] : List String) := by
  refine ⟨rfl, rfl, by decide⟩

end CarAI
